import Mathlib

/-!
Verification development for the x-rss worker: a shallow embedding of the
content-classification, post-extraction, cache-indexing, link-resolution and
concurrency-guard subsystems (src/tweet-extract.ts, src/index.tsx, src/hc.ts),
with theorems settling the specification's claims about them.
-/

/-! ## DOM model (the markup subtrees consumed by tweet-extract.ts)

A node carries the attributes the extraction code reads: `nodeName`,
`data` (the character data of a `#text` node), and the `href`, `src`, `alt`
and `title` attributes read off anchor and image elements. -/

structure NodeInfo where
  nodeName : String
  data : String
  href : String
  src : String
  alt : String
  title : String

inductive DomNode where
  | node (info : NodeInfo) (children : List DomNode)

def DomNode.info : DomNode → NodeInfo
  | .node i _ => i

def DomNode.children : DomNode → List DomNode
  | .node _ c => c

mutual

/-- DOM `textContent`: the data of a `#text` node, otherwise the concatenation
of the children's text content in order. -/
def textContent : DomNode → String
  | .node i cs => if i.nodeName = "#text" then i.data else textContentList cs

/-- Concatenated `textContent` of a list of sibling nodes. -/
def textContentList : List DomNode → String
  | [] => ""
  | c :: rest => textContent c ++ textContentList rest

end

/-- Embeds `getStructure` of src/tweet-extract.ts: walk the single-child
descent chain collecting node names; stop at the first node that does not have
exactly one child. -/
def getStructureList : DomNode → List String
  | .node i [c] => i.nodeName :: getStructureList c
  | .node i _ => [i.nodeName]

def getStructure (el : DomNode) : String :=
  String.intercalate "::" (getStructureList el)

/-! ## Text chunks (src/tweet.ts) -/

inductive TextChunk where
  | text (content : String)
  | mention (user : String) (content : String)
  | hashtag (hashtag : String) (link : String)
  | link (href : String)
  | emoji (content : String) (description : String)
deriving DecidableEq, Repr

deriving instance DecidableEq for Except

/-! String helpers mirroring the JS string primitives the source uses.  They
are written over the character list of a `String` so that they evaluate by
kernel reduction on concrete inputs. -/

/-- JS `s.startsWith(p)`. -/
def jsStartsWith (s p : String) : Bool :=
  p.data.isPrefixOf s.data

/-- Whether `needle` occurs as a contiguous sublist of `hay`. -/
def listIncludes (needle : List Char) : List Char → Bool
  | [] => needle.isEmpty
  | c :: rest => needle.isPrefixOf (c :: rest) || listIncludes needle rest

/-- JS `haystack.includes(needle)` on strings. -/
def strIncludes (haystack needle : String) : Bool :=
  listIncludes needle.data haystack.data

/-- JS `s.trim()`: strip leading and trailing whitespace. -/
def jsTrim (s : String) : String :=
  ⟨((s.data.dropWhile Char.isWhitespace).reverse.dropWhile Char.isWhitespace).reverse⟩

/-- JS `s.split(sep)` for a one-character separator (the only form the source
uses): split at every occurrence, keeping empty fields. -/
def splitCharList (sep : Char) : List Char → List (List Char)
  | [] => [[]]
  | c :: rest =>
    if c = sep then [] :: splitCharList sep rest
    else
      match splitCharList sep rest with
      | [] => [[c]]
      | g :: gs => (c :: g) :: gs

/-- JS `s.split(sep)` for a one-character separator, on strings. -/
def jsSplitChar (s : String) (sep : Char) : List String :=
  (splitCharList sep s.data).map String.mk

example : jsSplitChar "/u/status/12" '/' = ["", "u", "status", "12"] := by decide
example : jsTrim "  @x " = "@x" := by decide
example : strIncludes "https://a/emoji/b.png" "/emoji/" = true := by decide
example : strIncludes "https://a/photo/b.png" "/emoji/" = false := by decide

/-- One arm of the `switch` in `extractTextChunks` (src/tweet-extract.ts):
classify a single immediate child by its structure string.  A successful
classification pushes zero chunks (a plain-text span whose text content is
empty) or one chunk; anything else throws.  The thrown message is the
`Except.error` payload. -/
def classifyChild (ttcel : DomNode) : Except String (List TextChunk) :=
  let struct := getStructure ttcel
  if struct = "SPAN::#text" then
    if textContent ttcel ≠ "" then .ok [.text (textContent ttcel)] else .ok []
  else if struct = "DIV::SPAN::A::#text" then
    if jsStartsWith (jsTrim (textContent ttcel)) "@" then
      .ok [.mention (jsTrim (textContent ttcel)) (textContent ttcel)]
    else .error (struct ++ " was not a mention as expected")
  else if struct = "SPAN::A::#text" then
    -- `childNodes[0]` always exists here: the structure string forces a
    -- single-child chain, so `headD` never falls back to its default.
    let anchorEl := ttcel.children.headD (.node ⟨"", "", "", "", "", ""⟩ [])
    if jsStartsWith (textContent anchorEl) "#" then
      .ok [.hashtag (textContent anchorEl) anchorEl.info.href]
    else .error "SPAN::A::#text was not a hashtag like expected"
  else if struct = "A" then
    .ok [.link ttcel.info.href]
  else if struct = "IMG" then
    if strIncludes ttcel.info.src "/emoji/" then
      .ok [.emoji ttcel.info.alt ttcel.info.title]
    else .error (struct ++ " was not an emoji as expected")
  else .error ("unexpected tweet text structure: " ++ struct)

/-- The `for` loop of `extractTextChunks`: classify each child in order,
appending the produced chunks; the first thrown error aborts the whole call. -/
def extractChunksList : List DomNode → Except String (List TextChunk)
  | [] => .ok []
  | c :: rest => do
    let cs ← classifyChild c
    let more ← extractChunksList rest
    pure (cs ++ more)

/-- Embeds `extractTextChunks` of src/tweet-extract.ts. -/
def extractTextChunks (el : DomNode) : Except String (List TextChunk) :=
  extractChunksList el.children

/-- The five structure strings the classifier's `switch` recognizes. -/
def supportedStruct (s : String) : Bool :=
  s = "SPAN::#text" || s = "DIV::SPAN::A::#text" || s = "SPAN::A::#text" ||
    s = "A" || s = "IMG"

/-- A child the classifier silently skips: a plain-text span whose text
content is empty. -/
def skippedChild (c : DomNode) : Bool :=
  getStructure c = "SPAN::#text" && textContent c = ""

/-! Concrete nodes used in examples and witnesses. -/

def mkText (s : String) : DomNode := .node ⟨"#text", s, "", "", "", ""⟩ []

def mkSpanText (s : String) : DomNode := .node ⟨"SPAN", "", "", "", "", ""⟩ [mkText s]

def mkAnchor (href text : String) : DomNode :=
  .node ⟨"A", "", href, "", "", ""⟩ [mkText text]

/-- A card-style link anchor: several children, so the single-child descent of
`getStructure` stops at `A` (an anchor with exactly one text child would have
structure `A::#text` instead and be rejected). -/
def mkLinkAnchor (href : String) : DomNode :=
  .node ⟨"A", "", href, "", "", ""⟩ [mkText "card", mkText "…"]

def mkHashtagNode (href text : String) : DomNode :=
  .node ⟨"SPAN", "", "", "", "", ""⟩ [mkAnchor href text]

def mkMentionNode (href text : String) : DomNode :=
  .node ⟨"DIV", "", "", "", "", ""⟩ [.node ⟨"SPAN", "", "", "", "", ""⟩ [mkAnchor href text]]

def mkEmoji (src alt title : String) : DomNode := .node ⟨"IMG", "", "", src, alt, title⟩ []

def mkTweetText (children : List DomNode) : DomNode :=
  .node ⟨"DIV", "", "", "", "", ""⟩ children

example : getStructure (mkSpanText "hi") = "SPAN::#text" := rfl
example : getStructure (mkMentionNode "u" "@x") = "DIV::SPAN::A::#text" := rfl
example : getStructure (mkHashtagNode "u" "#x") = "SPAN::A::#text" := rfl
example : getStructure (mkLinkAnchor "u") = "A" := rfl
example : getStructure (mkEmoji "https://a/emoji/b.png" "x" "y") = "IMG" := rfl

example :
    extractTextChunks (mkTweetText [mkSpanText "hello ", mkMentionNode "u" "@nws"]) =
      .ok [.text "hello ", .mention "@nws" "@nws"] := by decide

example :
    extractTextChunks (mkTweetText [.node ⟨"VIDEO", "", "", "", "", ""⟩ []]) =
      .error "unexpected tweet text structure: VIDEO" := by decide

/-! ## Claim C1: per-child classification behaviour -/

theorem classifyChild_ok_shape (c : DomNode) (cs : List TextChunk)
    (h : classifyChild c = .ok cs) :
    supportedStruct (getStructure c) = true ∧
      cs.length = if skippedChild c then 0 else 1 := by
  unfold classifyChild at h
  by_cases h1 : getStructure c = "SPAN::#text"
  · rw [if_pos h1] at h
    by_cases h2 : textContent c = ""
    · rw [if_neg (by simp [h2])] at h
      cases h
      simp [supportedStruct, skippedChild, h1, h2]
    · rw [if_pos (by simp [h2])] at h
      cases h
      simp [supportedStruct, skippedChild, h1, h2]
  · rw [if_neg h1] at h
    by_cases h2 : getStructure c = "DIV::SPAN::A::#text"
    · rw [if_pos h2] at h
      by_cases h3 : jsStartsWith (jsTrim (textContent c)) "@" = true
      · rw [if_pos h3] at h
        cases h
        simp [supportedStruct, skippedChild, h1, h2]
      · rw [if_neg h3] at h
        cases h
    · rw [if_neg h2] at h
      by_cases h3 : getStructure c = "SPAN::A::#text"
      · rw [if_pos h3] at h
        by_cases h4 : jsStartsWith
            (textContent (c.children.headD (.node ⟨"", "", "", "", "", ""⟩ []))) "#" = true
        · rw [if_pos h4] at h
          cases h
          simp [supportedStruct, skippedChild, h1, h3]
        · rw [if_neg h4] at h
          cases h
      · rw [if_neg h3] at h
        by_cases h4 : getStructure c = "A"
        · rw [if_pos h4] at h
          cases h
          simp [supportedStruct, skippedChild, h1, h4]
        · rw [if_neg h4] at h
          by_cases h5 : getStructure c = "IMG"
          · rw [if_pos h5] at h
            by_cases h6 : strIncludes c.info.src "/emoji/" = true
            · rw [if_pos h6] at h
              cases h
              simp [supportedStruct, skippedChild, h1, h5]
            · rw [if_neg h6] at h
              cases h
          · rw [if_neg h5] at h
            cases h

theorem classifyChild_unsupported (c : DomNode)
    (h : supportedStruct (getStructure c) = false) :
    classifyChild c = .error ("unexpected tweet text structure: " ++ getStructure c) := by
  unfold supportedStruct at h
  simp only [Bool.or_eq_false_iff, decide_eq_false_iff_not] at h
  unfold classifyChild
  simp only [if_neg h.1.1.1.1, if_neg h.1.1.1.2, if_neg h.1.1.2, if_neg h.1.2, if_neg h.2]

theorem extractChunksList_ok (l : List DomNode) (res : List TextChunk)
    (h : extractChunksList l = .ok res) :
    (∀ c ∈ l, supportedStruct (getStructure c) = true) ∧
      res.length + l.countP skippedChild = l.length := by
  induction l generalizing res with
  | nil =>
    simp only [extractChunksList] at h
    cases h
    simp
  | cons c rest ih =>
    simp only [extractChunksList, bind, Except.bind] at h
    cases hc : classifyChild c with
    | error e => rw [hc] at h; cases h
    | ok cs =>
      rw [hc] at h
      cases hr : extractChunksList rest with
      | error e => rw [hr] at h; cases h
      | ok more =>
        rw [hr] at h
        simp only [pure, Except.pure, Except.ok.injEq] at h
        obtain ⟨hsupp, hlen⟩ := classifyChild_ok_shape c cs hc
        obtain ⟨ihsupp, ihlen⟩ := ih more hr
        subst h
        refine ⟨?_, ?_⟩
        · intro d hd
          rcases List.mem_cons.mp hd with h1 | h2
          · exact h1 ▸ hsupp
          · exact ihsupp d h2
        · simp only [List.countP_cons, List.length_cons, List.length_append]
          by_cases hsk : skippedChild c = true
          · rw [if_pos hsk] at hlen
            rw [if_pos hsk]
            omega
          · rw [if_neg hsk] at hlen
            rw [if_neg hsk]
            omega

theorem extractChunksList_err_of_unsupported (l : List DomNode) (c : DomNode)
    (hc : c ∈ l) (hu : supportedStruct (getStructure c) = false) :
    ∃ e, extractChunksList l = .error e := by
  induction l with
  | nil => cases hc
  | cons d rest ih =>
    rcases List.mem_cons.mp hc with h1 | h2
    · subst h1
      refine ⟨"unexpected tweet text structure: " ++ getStructure c, ?_⟩
      simp only [extractChunksList, bind, Except.bind, classifyChild_unsupported c hu]
    · cases hd : classifyChild d with
      | error e => exact ⟨e, by simp only [extractChunksList, bind, Except.bind, hd]⟩
      | ok cs =>
        obtain ⟨e, he⟩ := ih h2
        exact ⟨e, by simp only [extractChunksList, bind, Except.bind, hd, he]⟩

/-- C1 (amended).  Whenever `extractTextChunks` succeeds, every immediate
child's structure was one of the five supported shapes and the number of
produced chunks is the number of children minus the silently skipped
plain-text spans with empty text (every other supported child contributed
exactly one chunk); a child whose structure is outside the supported set
makes classification fail, and its per-child classification error names that
structure. -/
theorem extract_chunks_classification :
    (∀ el res, extractTextChunks el = .ok res →
        (∀ c ∈ el.children, supportedStruct (getStructure c) = true) ∧
          res.length + el.children.countP skippedChild = el.children.length) ∧
    (∀ c, supportedStruct (getStructure c) = false →
        classifyChild c = .error ("unexpected tweet text structure: " ++ getStructure c)) ∧
    (∀ el c, c ∈ el.children → supportedStruct (getStructure c) = false →
        ∃ e, extractTextChunks el = .error e) :=
  ⟨fun el res h => extractChunksList_ok el.children res h,
   classifyChild_unsupported,
   fun el c hc hu => extractChunksList_err_of_unsupported el.children c hc hu⟩

/-- Witness for the C1 theorem at concrete inputs: a two-child node (one
non-empty text span, one empty text span) classifies to one chunk, and a node
with an unsupported `VIDEO` child fails. -/
theorem extract_chunks_classification_witness :
    ([TextChunk.text "hi"].length +
        (mkTweetText [mkSpanText "hi", mkSpanText ""]).children.countP skippedChild =
      (mkTweetText [mkSpanText "hi", mkSpanText ""]).children.length) ∧
    (∃ e, extractTextChunks (mkTweetText [.node ⟨"VIDEO", "", "", "", "", ""⟩ []]) =
      .error e) :=
  ⟨(extract_chunks_classification.1 (mkTweetText [mkSpanText "hi", mkSpanText ""])
      [TextChunk.text "hi"] (by decide)).2,
   extract_chunks_classification.2.2 (mkTweetText [.node ⟨"VIDEO", "", "", "", "", ""⟩ []])
      (.node ⟨"VIDEO", "", "", "", "", ""⟩ []) (List.mem_singleton.mpr rfl) (by decide)⟩

/-- Counterexample to C1 as stated: a plain-text span whose text content is
empty has a supported shape (`SPAN::#text`) yet produces no chunk at all — the
child is silently skipped instead of yielding exactly one `TextChunk`. -/
theorem extract_chunks_empty_span_skipped :
    getStructure (mkSpanText "") = "SPAN::#text" ∧
      supportedStruct (getStructure (mkSpanText "")) = true ∧
      (mkTweetText [mkSpanText ""]).children.length = 1 ∧
      extractTextChunks (mkTweetText [mkSpanText ""]) = .ok [] := by
  refine ⟨rfl, by decide, rfl, by decide⟩

/-! ## Posts (the `Tweet` record of src/tweet.ts) -/

structure TweetAuthor where
  name : String
  url : String
  img : String
deriving DecidableEq, Repr

inductive Media where
  | photo (src : String) (alt : String)
  | video (src : String) (poster : String) (gif : Bool)
deriving DecidableEq, Repr

structure Tweet where
  author : TweetAuthor
  timestamp : String
  text_chunks : List TextChunk
  repost : Bool
  media : List Media
  link : String
deriving DecidableEq, Repr

def sampleTweet : Tweet :=
  ⟨⟨"NWS New York", "https://x.com/NWSNewYorkNY", "https://pbs.example/avatar.jpg"⟩,
    "2025-01-01T00:00:00.000Z", [.text "hello"], false, [],
    "https://x.com/NWSNewYorkNY/status/12345"⟩

/-! ## Claims C2 and C3: the post-extraction loop of `extractTweets`
(src/tweet-extract.ts lines 182–203)

The loop is embedded with its environment made explicit:
- `next` models `document.querySelector('[data-testid=tweet]:not([data-extracted])')`:
  given the list of elements already marked `data-extracted` (identified by
  stable indices), it returns an unmarked element or `none`.  The page may be
  unbounded: `next` may keep producing elements forever.
- `outcome` models `await extractTweet(el)`: a pinned post yields `null`
  (`pinned`), otherwise a tweet, or a thrown error.
- `elapsed i` is `Date.now() - start` at the `i`-th iteration's budget check;
  it is strictly increasing because every iteration awaits a 500 ms sleep
  inside `extractTweet`.
The element to extract is marked (prepended to `visited`) before its
extraction outcome is consulted, exactly as in the source.  Lean accepts the
definition as total, which is the termination argument: even on an unbounded
page the loop stops (by cap, by exhaustion, or by the time budget check). -/

inductive ExtractOutcome where
  | pinned
  | extracted (t : Tweet)
  | failed (e : String)

inductive LoopResult where
  | ok (tweets : List Tweet)
  | error (e : String)
deriving DecidableEq, Repr

def extractTweetsLoop (next : List Nat → Option Nat) (outcome : Nat → ExtractOutcome)
    (elapsed : Nat → Nat) (hmono : ∀ j, elapsed j < elapsed (j + 1))
    (i : Nat) (visited : List Nat) (tweets : List Tweet) : LoopResult × List Nat :=
  match next visited with
  | none => (.ok tweets, visited)
  | some j =>
    if tweets.length < 15 then
      if _h : elapsed i > 60000 then (.error "timeout!", visited)
      else
        match outcome j with
        | .failed e => (.error e, j :: visited)
        | .pinned => extractTweetsLoop next outcome elapsed hmono (i + 1) (j :: visited) tweets
        | .extracted t =>
          extractTweetsLoop next outcome elapsed hmono (i + 1) (j :: visited) (tweets ++ [t])
    else (.ok tweets, visited)
termination_by 60001 - elapsed i
decreasing_by
  · have := hmono i; omega
  · have := hmono i; omega

/-- C2.  From any start state with distinct marks and at most 15 collected
posts (in particular from the initial state), the loop never marks — hence
never attempts to extract — the same element twice, and whenever it returns
normally the collected list has at most 15 posts.  Totality of
`extractTweetsLoop` itself is the termination half of the claim. -/
theorem extract_loop_no_revisit_and_cap
    (next : List Nat → Option Nat) (outcome : Nat → ExtractOutcome)
    (elapsed : Nat → Nat) (hmono : ∀ j, elapsed j < elapsed (j + 1))
    (hnext : ∀ v j, next v = some j → j ∉ v)
    (i : Nat) (visited : List Nat) (tweets : List Tweet)
    (hv : visited.Nodup) (ht : tweets.length ≤ 15) :
    (extractTweetsLoop next outcome elapsed hmono i visited tweets).2.Nodup ∧
      ∀ ts, (extractTweetsLoop next outcome elapsed hmono i visited tweets).1 = .ok ts →
        ts.length ≤ 15 := by
  induction i, visited, tweets using extractTweetsLoop.induct next outcome elapsed hmono with
  | case1 i visited tweets hnone =>
    rw [extractTweetsLoop]
    simp only [hnone]
    exact ⟨hv, fun ts hts => by cases hts; exact ht⟩
  | case2 i visited tweets j hsome hlt hto =>
    rw [extractTweetsLoop]
    simp only [hsome, if_pos hlt, dif_pos hto]
    exact ⟨hv, fun ts hts => by cases hts⟩
  | case3 i visited tweets j hsome hlt hto e hfail =>
    rw [extractTweetsLoop]
    simp only [hsome, if_pos hlt, dif_neg hto, hfail]
    exact ⟨List.nodup_cons.mpr ⟨hnext visited j hsome, hv⟩, fun ts hts => by cases hts⟩
  | case4 i visited tweets j hsome hlt hto hpin ih =>
    rw [extractTweetsLoop]
    simp only [hsome, if_pos hlt, dif_neg hto, hpin]
    exact ih (List.nodup_cons.mpr ⟨hnext visited j hsome, hv⟩) ht
  | case5 i visited tweets j hsome hlt hto t hext ih =>
    rw [extractTweetsLoop]
    simp only [hsome, if_pos hlt, dif_neg hto, hext]
    exact ih (List.nodup_cons.mpr ⟨hnext visited j hsome, hv⟩)
      (by simp only [List.length_append, List.length_cons, List.length_nil]; omega)
  | case6 i visited tweets j hsome hge =>
    rw [extractTweetsLoop]
    simp only [hsome, if_neg hge]
    exact ⟨hv, fun ts hts => by cases hts; omega⟩

/-- C3.  When the budget check fires — an unvisited post element remains, the
count cap has not been reached, and elapsed time exceeds 60 000 ms — the loop
returns the timeout error and discards whatever was collected so far. -/
theorem extract_loop_timeout_discards_partial
    (next : List Nat → Option Nat) (outcome : Nat → ExtractOutcome)
    (elapsed : Nat → Nat) (hmono : ∀ j, elapsed j < elapsed (j + 1))
    (i : Nat) (visited : List Nat) (tweets : List Tweet) (j : Nat)
    (hj : next visited = some j) (hcap : tweets.length < 15)
    (hto : elapsed i > 60000) :
    extractTweetsLoop next outcome elapsed hmono i visited tweets =
      (.error "timeout!", visited) := by
  rw [extractTweetsLoop]
  simp only [hj, if_pos hcap, dif_pos hto]

/-- A `querySelector` model for witnesses: one post element (index 0), served
while unmarked. -/
def nextUnvisited0 : List Nat → Option Nat :=
  fun v => if 0 ∈ v then none else some 0

theorem nextUnvisited0_fresh : ∀ v j, nextUnvisited0 v = some j → j ∉ v := by
  intro v j h
  unfold nextUnvisited0 at h
  by_cases h0 : 0 ∈ v
  · rw [if_pos h0] at h
    cases h
  · rw [if_neg h0] at h
    cases h
    exact h0

/-- A clock advancing 1 ms per iteration from 0. -/
def elapsedLinear : Nat → Nat := fun k => k

theorem elapsedLinear_mono : ∀ j, elapsedLinear j < elapsedLinear (j + 1) :=
  fun j => Nat.lt_succ_self j

/-- A clock already past the 60 s budget at the first check. -/
def elapsedLate : Nat → Nat := fun k => 70000 + k

theorem elapsedLate_mono : ∀ j, elapsedLate j < elapsedLate (j + 1) :=
  fun j => Nat.add_lt_add_left (Nat.lt_succ_self j) 70000

/-- Witness for the C2 theorem at a concrete page and clock. -/
theorem extract_loop_no_revisit_and_cap_witness :
    (extractTweetsLoop nextUnvisited0 (fun _ => .extracted sampleTweet) elapsedLinear
        elapsedLinear_mono 0 [] []).2.Nodup :=
  (extract_loop_no_revisit_and_cap nextUnvisited0 (fun _ => .extracted sampleTweet)
    elapsedLinear elapsedLinear_mono nextUnvisited0_fresh 0 [] []
    List.nodup_nil (by decide)).1

/-- Witness for the C3 theorem: the budget is already blown, one unvisited
element remains, and one post has already been collected — the loop still
fails with the timeout error instead of returning the partial list. -/
theorem extract_loop_timeout_discards_partial_witness :
    extractTweetsLoop nextUnvisited0 (fun _ => .pinned) elapsedLate elapsedLate_mono
        0 [] [sampleTweet] = (.error "timeout!", []) :=
  extract_loop_timeout_discards_partial nextUnvisited0 (fun _ => .pinned) elapsedLate
    elapsedLate_mono 0 [] [sampleTweet] 0 rfl (by decide) (by decide)

/-! ## Claim C4: permalink parsing (`tweetLinkExplode`, src/index.tsx) -/

structure ParsedURL where
  hostname : String
  pathname : String
deriving DecidableEq, Repr

/-- Models the platform WHATWG `URL.parse` for absolute http(s) URLs of the
simple form `scheme://host/path` — no userinfo, port, query or fragment
components, which none of the links handled by the source carry.  Other inputs
parse to `none` (JS `null`).  An empty path normalizes to `"/"`, as in the
platform parser. -/
def urlParse (link : String) : Option ParsedURL :=
  let afterScheme :=
    if jsStartsWith link "https://" then some ⟨link.data.drop 8⟩
    else if jsStartsWith link "http://" then some ⟨link.data.drop 7⟩
    else none
  match afterScheme with
  | none => none
  | some rest =>
    match jsSplitChar rest '/' with
    | [] => none
    | host :: pathParts =>
      if host = "" then none
      else some ⟨host, "/" ++ String.intercalate "/" pathParts⟩

example : urlParse "https://x.com/NWSNewYorkNY/status/12345" =
    some ⟨"x.com", "/NWSNewYorkNY/status/12345"⟩ := by decide
example : urlParse "https://x.com" = some ⟨"x.com", "/"⟩ := by decide
example : urlParse "not a url" = none := by decide

/-- Embeds `tweetLinkExplode` of src/index.tsx: parse the link, require host
`x.com` or `twitter.com`, then destructure the path split on `/` as
`[, username, statusWord, id]`.  JS `!username` is the falsy test (absent or
empty string); an absent `statusWord` gives the bare-profile result; a
`statusWord` other than `'status'` gives `(null, null)`.  The returned `id`
slot is `parts[3]`, which is `undefined` (`none`) when the path stops at
`/status`. -/
def tweetLinkExplode (link : String) : Option String × Option String :=
  match urlParse link with
  | none => (none, none)
  | some uri =>
    if uri.hostname = "x.com" ∨ uri.hostname = "twitter.com" then
      let parts := jsSplitChar uri.pathname '/'
      match parts[1]? with
      | none => (none, none)
      | some username =>
        -- JS `!username`: the segment is absent (handled above) or empty.
        if username = "" then (none, none)
        else
          match parts[2]? with
          | none => (some username, none)
          | some statusWord =>
            if statusWord = "status" then (some username, parts[3]?)
            else (none, none)
    else (none, none)

example : tweetLinkExplode "https://x.com/NWSNewYorkNY/status/12345" =
    (some "NWSNewYorkNY", some "12345") := by decide
example : tweetLinkExplode "https://x.com/NWSNewYorkNY" =
    (some "NWSNewYorkNY", none) := by decide
example : tweetLinkExplode "https://other.example/x" = (none, none) := by decide
example : tweetLinkExplode "https://x.com/NWSNewYorkNY/with_replies" = (none, none) := by decide

/-- C4 (amended).  The two positive examples parse as claimed; any link whose
host is not `x.com`/`twitter.com`, or that does not parse at all, yields
`(null, null)`; and every successful `(username, id)` result comes from a path
whose segments 1–3 are `username/status/id` — but extra path segments after
the id are tolerated rather than rejected. -/
theorem tweet_link_explode_spec :
    (tweetLinkExplode "https://x.com/NWSNewYorkNY/status/12345" =
        (some "NWSNewYorkNY", some "12345") ∧
      tweetLinkExplode "https://x.com/NWSNewYorkNY" = (some "NWSNewYorkNY", none)) ∧
    (∀ link, urlParse link = none → tweetLinkExplode link = (none, none)) ∧
    (∀ link uri, urlParse link = some uri → uri.hostname ≠ "x.com" →
        uri.hostname ≠ "twitter.com" → tweetLinkExplode link = (none, none)) ∧
    (∀ link uri u i, urlParse link = some uri →
        tweetLinkExplode link = (some u, some i) →
        (uri.hostname = "x.com" ∨ uri.hostname = "twitter.com") ∧
          (jsSplitChar uri.pathname '/')[1]? = some u ∧
          (jsSplitChar uri.pathname '/')[2]? = some "status" ∧
          (jsSplitChar uri.pathname '/')[3]? = some i) := by
  refine ⟨⟨by decide, by decide⟩, ?_, ?_, ?_⟩
  · intro link h
    unfold tweetLinkExplode
    rw [h]
  · intro link uri h hx ht
    unfold tweetLinkExplode
    rw [h]
    dsimp only
    rw [if_neg (by simp [hx, ht])]
  · intro link uri u i h hres
    unfold tweetLinkExplode at hres
    rw [h] at hres
    dsimp only at hres
    by_cases hh : uri.hostname = "x.com" ∨ uri.hostname = "twitter.com"
    · rw [if_pos hh] at hres
      refine ⟨hh, ?_⟩
      cases h1 : (jsSplitChar uri.pathname '/')[1]? with
      | none =>
        simp only [h1] at hres
        simp at hres
      | some username =>
        simp only [h1] at hres
        by_cases he : username = ""
        · rw [if_pos he] at hres
          simp at hres
        · rw [if_neg he] at hres
          cases h2 : (jsSplitChar uri.pathname '/')[2]? with
          | none =>
            simp only [h2] at hres
            simp at hres
          | some statusWord =>
            simp only [h2] at hres
            by_cases hs : statusWord = "status"
            · rw [if_pos hs] at hres
              have hu : username = u := Option.some.inj (congrArg Prod.fst hres)
              have hi : (jsSplitChar uri.pathname '/')[3]? = some i :=
                congrArg Prod.snd hres
              exact ⟨by rw [hu], by rw [hs], hi⟩
            · rw [if_neg hs] at hres
              simp at hres
    · rw [if_neg hh] at hres
      simp at hres

/-- Witness for the C4 theorem at concrete links: a foreign host yields
`(null, null)`, and a successful parse of a longer status path exposes the
`username/status/id` prefix of its segments. -/
theorem tweet_link_explode_spec_witness :
    tweetLinkExplode "https://other.example/x" = (none, none) ∧
      ((ParsedURL.mk "x.com" "/u/status/123/photo/1").hostname = "x.com" ∨
          (ParsedURL.mk "x.com" "/u/status/123/photo/1").hostname = "twitter.com") ∧
        (jsSplitChar (ParsedURL.mk "x.com" "/u/status/123/photo/1").pathname '/')[1]? =
          some "u" ∧
        (jsSplitChar (ParsedURL.mk "x.com" "/u/status/123/photo/1").pathname '/')[2]? =
          some "status" ∧
        (jsSplitChar (ParsedURL.mk "x.com" "/u/status/123/photo/1").pathname '/')[3]? =
          some "123" :=
  ⟨tweet_link_explode_spec.2.2.1 "https://other.example/x" ⟨"other.example", "/x"⟩
      (by decide) (by decide) (by decide),
    tweet_link_explode_spec.2.2.2 "https://x.com/u/status/123/photo/1"
      ⟨"x.com", "/u/status/123/photo/1"⟩ "u" "123" (by decide) (by decide)⟩

/-- Counterexample to C4 as stated: the path `/u/status/123/photo/1` does not
match the `/{username}/status/{id}` shape, yet parsing returns
`("u", "123")` rather than `(null, null)` — trailing path segments after the
id are accepted. -/
theorem tweet_link_explode_extra_segments :
    tweetLinkExplode "https://x.com/u/status/123/photo/1" = (some "u", some "123") ∧
      tweetLinkExplode "https://x.com/u/status/123/photo/1" ≠ (none, none) :=
  ⟨by decide, by decide⟩

/-! ## Claim C5: repost round-trip through the pointer-indexed store
(src/index.tsx, `updateTweetsCache` write path and the timeline read path of
`fetch`)

`tweet_cache` holds JSON text; the post-key family is modelled with its
decoded payload, a `Tweet` body with the `repost` field deleted
(`StoredTweet`), as produced by `delete tweet.repost` + `JSON.stringify`. -/

/-- ASCII `toLowerCase`, as applied to usernames when deriving cache keys. -/
def lowerChar (c : Char) : Char :=
  if 'A' ≤ c ∧ c ≤ 'Z' then Char.ofNat (c.toNat + 32) else c

def strToLower (s : String) : String :=
  ⟨s.data.map lowerChar⟩

example : strToLower "NWSNewYorkNY" = "nwsnewyorkny" := by decide

/-- Embeds `tweetDataKey` of src/index.tsx. -/
def tweetDataKey (username id : String) : String :=
  "tweet/u:" ++ strToLower username ++ "/id:" ++ id

/-- A stored post body: the `Tweet` record with the `repost` flag stripped
out, as serialized by `updateTweetsCache`. -/
structure StoredTweet where
  author : TweetAuthor
  timestamp : String
  text_chunks : List TextChunk
  media : List Media
  link : String
deriving DecidableEq, Repr

/-- `const isRepost = tweet.repost; delete tweet.repost;` followed by
`JSON.stringify(tweet)`. -/
def stripRepost (t : Tweet) : StoredTweet :=
  ⟨t.author, t.timestamp, t.text_chunks, t.media, t.link⟩

/-- The pointer kind: `isRepost ? 'repost' : 'post'`. -/
inductive PtrKind where
  | post
  | repost
deriving DecidableEq, Repr

def ptrKindOf (t : Tweet) : PtrKind :=
  if t.repost then .repost else .post

/-- One element of `updateTweetsCache`'s per-post work: store the stripped
body under `tweetDataKey` and return the typed pointer `TweetPtr`. -/
def putTweetPtr (store : List (String × StoredTweet)) (username id : String)
    (t : Tweet) : List (String × StoredTweet) × (PtrKind × String) :=
  let key := tweetDataKey username id
  ((key, stripRepost t) :: store, (ptrKindOf t, key))

/-- The read path of `fetch` (src/index.tsx): `repost = ptrType === 'repost'`,
fetch the body at the pointer key, and rebuild `{...tweet, repost}`.  A
missing body is the thrown `broken tweet pointer` error, modelled as `none`. -/
def readTweetPtr (store : List (String × StoredTweet)) (ptr : PtrKind × String) :
    Option Tweet :=
  match store.lookup ptr.2 with
  | none => none
  | some s =>
    some ⟨s.author, s.timestamp, s.text_chunks,
      (match ptr.1 with | .repost => true | .post => false), s.media, s.link⟩

/-- C5.  Storing any post strips the repost flag into the pointer kind
(`repost` exactly when the flag was set), and reading back through the
returned pointer reconstructs the original post, repost flag included. -/
theorem tweet_ptr_roundtrip (store : List (String × StoredTweet))
    (username id : String) (t : Tweet) :
    (putTweetPtr store username id t).2.1 =
        (if t.repost then PtrKind.repost else PtrKind.post) ∧
      readTweetPtr (putTweetPtr store username id t).1
        (putTweetPtr store username id t).2 = some t := by
  refine ⟨rfl, ?_⟩
  unfold readTweetPtr putTweetPtr stripRepost ptrKindOf
  dsimp only
  rw [List.lookup_cons_self]
  cases t with
  | mk author timestamp text_chunks repost media link =>
    cases repost <;> rfl

/-! ## Claims C6, C7, C10: the link resolution cache (`unwrapLink`,
src/index.tsx)

The key-value store is modelled with explicit time: `put` with a TTL records
an absolute expiry, and `get` at time `now` hides entries whose expiry has
been reached (Cloudflare KV semantics, TTL in seconds). -/

structure KVEntry where
  value : String
  expiresAt : Option Nat
deriving DecidableEq, Repr

abbrev LinkKV := List (String × KVEntry)

def kvGet (store : LinkKV) (now : Nat) (key : String) : Option String :=
  match List.lookup key store with
  | none => none
  | some e =>
    match e.expiresAt with
    | none => some e.value
    | some t => if now < t then some e.value else none

def kvPut (store : LinkKV) (now : Nat) (key value : String) (ttl : Option Nat) :
    LinkKV :=
  (key, ⟨value, ttl.map (now + ·)⟩) :: store

/-- Models the platform SHA-256 hex digest.  The source uses it only as a
deterministic key-derivation function (so raw third-party URLs do not appear
as plaintext keys); it is modelled as an injective placeholder digest, which
matches the design assumption that distinct links get distinct keys. -/
def sha256 (message : String) : String := message

/-- Embeds `linkUnwrapResultData` of src/index.tsx. -/
def linkUnwrapResultData (link : String) : String :=
  "link-unwrap/hash:" ++ sha256 ("salt:2e360ca8-cb6b-455e-9168-d45c23a5d8be" ++ link)

/-- Models the platform base64 encoder `btoa`.  The source uses the pair
`btoa`/`atob` purely as a reversible transport encoding for values passing
through the resolver and the cache; it is modelled as the identity encoding,
which preserves the one property the code relies on: `atob (btoa s) = s`. -/
def btoa (s : String) : String := s

/-- Models the platform base64 decoder `atob`, inverse of `btoa`. -/
def atob (s : String) : String := s

/-- One hop returned by the external `LINK_UNWRAP` resolver. -/
structure HopLocation where
  original : String
  cleaned : Option String
  removed_params : List String
deriving DecidableEq, Repr

structure LinkHop where
  seq : Nat
  location : HopLocation
  status_code : Option Nat
  errmsg : Option String
  final : Bool
deriving DecidableEq, Repr

/-- The `for (let h of hops.reverse())` scan of `unwrapLink`: skip non-final
hops; at the first final hop persist `cleaned ?? original` under the salted
key with a two-week TTL and return it; falling off the end throws. -/
def unwrapLinkScan (store : LinkKV) (now : Nat) (key : String) :
    List LinkHop → Except String String × LinkKV
  | [] => (.error "unable to determine \"final\" hop", store)
  | h :: rest =>
    if h.final then
      let final := h.location.cleaned.getD h.location.original
      (.ok final, kvPut store now key (btoa final) (some 1209600))
    else unwrapLinkScan store now key rest

/-- Embeds `unwrapLink` of src/index.tsx, returning the result together with
the (possibly updated) store.  A cache hit returns the decoded saved value
without consulting the resolver; a miss calls `follow` and scans the hops in
reverse order. -/
def unwrapLink (store : LinkKV) (follow : String → List LinkHop) (now : Nat)
    (link : String) : Except String String × LinkKV :=
  let key := linkUnwrapResultData link
  match kvGet store now key with
  | some savedValue => (.ok (atob savedValue), store)
  | none => unwrapLinkScan store now key ((follow (btoa link)).reverse)

/-- A successful scan's store update: the final URL was persisted under `key`
with the two-week TTL. -/
theorem unwrapLinkScan_ok (store : LinkKV) (now : Nat) (key : String)
    (hops : List LinkHop) (u : String) (st : LinkKV)
    (h : unwrapLinkScan store now key hops = (.ok u, st)) :
    st = kvPut store now key (btoa u) (some 1209600) := by
  induction hops with
  | nil => cases h
  | cons hp rest ih =>
    unfold unwrapLinkScan at h
    by_cases hf : hp.final = true
    · rw [if_pos hf] at h
      obtain ⟨h1, h2⟩ := Prod.mk.injEq .. ▸ h
      cases Except.ok.inj h1
      exact h2.symm
    · rw [if_neg hf] at h
      exact ih h

/-- A failed scan leaves the store untouched. -/
theorem unwrapLinkScan_err (store : LinkKV) (now : Nat) (key : String)
    (hops : List LinkHop) (e : String) (st : LinkKV)
    (h : unwrapLinkScan store now key hops = (.error e, st)) :
    st = store := by
  induction hops with
  | nil => exact (congrArg Prod.snd h).symm
  | cons hp rest ih =>
    unfold unwrapLinkScan at h
    by_cases hf : hp.final = true
    · rw [if_pos hf] at h
      cases congrArg Prod.fst h
    · rw [if_neg hf] at h
      exact ih h

/-- An unexpired `kvGet` miss stays a miss at any later time. -/
theorem kvGet_none_mono (store : LinkKV) (now now' : Nat) (key : String)
    (h : kvGet store now key = none) (hle : now ≤ now') :
    kvGet store now' key = none := by
  unfold kvGet at h ⊢
  cases hl : List.lookup key store with
  | none => simp only [hl]
  | some e =>
    simp only [hl] at h ⊢
    cases he : e.expiresAt with
    | none =>
      simp only [he] at h
      cases h
    | some t =>
      simp only [he] at h ⊢
      by_cases hlt : now < t
      · rw [if_pos hlt] at h
        cases h
      · rw [if_neg (by omega : ¬ now' < t)]

/-- Scanning skips over any prefix of non-final hops. -/
theorem unwrapLinkScan_skip (store : LinkKV) (now : Nat) (key : String)
    (xs rest : List LinkHop) (hx : ∀ x ∈ xs, x.final = false) :
    unwrapLinkScan store now key (xs ++ rest) = unwrapLinkScan store now key rest := by
  induction xs with
  | nil => rfl
  | cons a as ih =>
    have ha : a.final = false := hx a (List.mem_cons_self a as)
    rw [List.cons_append]
    show unwrapLinkScan store now key (a :: (as ++ rest)) = _
    simp only [unwrapLinkScan]
    rw [if_neg (by simp [ha])]
    exact ih fun x hx' => hx x (List.mem_cons_of_mem a hx')

/-- C6.  After a cache-miss resolution succeeds, any later call for the same
link within the two-week window returns the same final URL from the cache,
leaves the store unchanged, and its result does not depend on the resolver at
all (the conclusion holds for every `follow2`). -/
theorem unwrap_link_idempotent (store : LinkKV) (follow : String → List LinkHop)
    (link : String) (t0 : Nat) (url : String) (store' : LinkKV)
    (hmiss : kvGet store t0 (linkUnwrapResultData link) = none)
    (hres : unwrapLink store follow t0 link = (.ok url, store'))
    (follow2 : String → List LinkHop) (t1 : Nat) (hwin : t1 < t0 + 1209600) :
    unwrapLink store' follow2 t1 link = (.ok url, store') := by
  unfold unwrapLink at hres
  simp only [hmiss] at hres
  have hst := unwrapLinkScan_ok store t0 (linkUnwrapResultData link) _ url store' hres
  subst hst
  unfold unwrapLink
  have hget : kvGet (kvPut store t0 (linkUnwrapResultData link) (btoa url) (some 1209600))
      t1 (linkUnwrapResultData link) = some (btoa url) := by
    unfold kvGet kvPut
    rw [List.lookup_cons_self]
    dsimp only [Option.map]
    rw [if_pos hwin]
  simp only [hget]
  rfl

/-- C7.  On a cache miss: if no hop is final the whole resolution fails with
the unresolved-link error (and the store is unchanged); if some hop is final,
the scan picks the last final hop in recorded order (the first one met when
iterating in reverse) and returns its cleaned URL, falling back to the
original when no cleaned variant is present. -/
theorem unwrap_link_final_hop_selection (store : LinkKV)
    (follow : String → List LinkHop) (now : Nat) (link : String)
    (hmiss : kvGet store now (linkUnwrapResultData link) = none) :
    ((∀ hp ∈ follow (btoa link), hp.final = false) →
        unwrapLink store follow now link =
          (.error "unable to determine \"final\" hop", store)) ∧
    (∀ l1 hp l2, follow (btoa link) = l1 ++ hp :: l2 → hp.final = true →
        (∀ h2 ∈ l2, h2.final = false) →
        (unwrapLink store follow now link).1 =
          .ok (hp.location.cleaned.getD hp.location.original)) := by
  constructor
  · intro hall
    unfold unwrapLink
    simp only [hmiss]
    have hnil : (follow (btoa link)).reverse ++ [] = (follow (btoa link)).reverse :=
      List.append_nil _
    rw [← hnil, unwrapLinkScan_skip store now (linkUnwrapResultData link) _ []
      (fun x hx => hall x (List.mem_reverse.mp hx))]
    rfl
  · intro l1 hp l2 hsplit hfin hl2
    unfold unwrapLink
    simp only [hmiss, hsplit]
    rw [List.reverse_append, List.reverse_cons, List.append_assoc,
      List.singleton_append]
    rw [unwrapLinkScan_skip store now (linkUnwrapResultData link) l2.reverse _
      (fun x hx => hl2 x (List.mem_reverse.mp hx))]
    simp only [unwrapLinkScan]
    rw [if_pos hfin]

/-- C10.  A failed resolution (no final hop) writes nothing: the store is
returned unchanged, the key is (and stays) absent, so any later call for the
same link takes the miss path and consults the external resolver again. -/
theorem unwrap_link_failure_leaves_store (store : LinkKV)
    (follow : String → List LinkHop) (now : Nat) (link : String) (e : String)
    (st' : LinkKV)
    (hres : unwrapLink store follow now link = (.error e, st')) :
    st' = store ∧
      kvGet store now (linkUnwrapResultData link) = none ∧
      (∀ now', now ≤ now' → kvGet st' now' (linkUnwrapResultData link) = none) ∧
      (∀ follow2 now', now ≤ now' →
        unwrapLink st' follow2 now' link =
          unwrapLinkScan st' now' (linkUnwrapResultData link)
            ((follow2 (btoa link)).reverse)) := by
  unfold unwrapLink at hres
  cases hget : kvGet store now (linkUnwrapResultData link) with
  | some v =>
    simp only [hget] at hres
    cases congrArg Prod.fst hres
  | none =>
    simp only [hget] at hres
    have hst : st' = store :=
      unwrapLinkScan_err store now (linkUnwrapResultData link) _ e st' hres
    subst hst
    refine ⟨rfl, rfl, ?_, ?_⟩
    · intro now' hle
      exact kvGet_none_mono st' now now' _ hget hle
    · intro follow2 now' hle
      unfold unwrapLink
      simp only [kvGet_none_mono st' now now' _ hget hle]

/-! Concrete links, hops and resolvers used in the link-cache witnesses. -/

def linkW : String := "https://t.co/abc"

def hopNonFinal : LinkHop :=
  ⟨0, ⟨"https://t.co/abc", none, []⟩, some 301, none, false⟩

def hopFinal : LinkHop :=
  ⟨1, ⟨"https://final.example/?utm_source=x", some "https://final.example/", []⟩,
    some 200, none, true⟩

/-- A resolver recording a redirect hop followed by a final hop. -/
def followW : String → List LinkHop := fun _ => [hopNonFinal, hopFinal]

/-- A resolver whose hop chain never reaches a final hop. -/
def followNoFinal : String → List LinkHop := fun _ => [hopNonFinal]

/-- The store after the first (cache-missing) resolution of `linkW`. -/
def storeW1 : LinkKV := (unwrapLink [] followW 0 linkW).2

/-- Witness for the C6 theorem: after resolving `linkW` at time 0 against
`followW`, a second call at time 5 — against a resolver that has no final hop
at all — still returns the cached final URL unchanged. -/
theorem unwrap_link_idempotent_witness :
    unwrapLink storeW1 followNoFinal 5 linkW = (.ok "https://final.example/", storeW1) :=
  unwrap_link_idempotent [] followW linkW 0 "https://final.example/" storeW1
    (by decide) (by decide) followNoFinal 5 (by decide)

/-- Witness for the C7 theorem: a chain with no final hop fails with the
unresolved-link error, and a chain whose last hop is final resolves to that
hop's cleaned URL. -/
theorem unwrap_link_final_hop_selection_witness :
    unwrapLink [] followNoFinal 0 linkW =
        (.error "unable to determine \"final\" hop", []) ∧
      (unwrapLink [] followW 0 linkW).1 = .ok "https://final.example/" :=
  ⟨(unwrap_link_final_hop_selection [] followNoFinal 0 linkW (by decide)).1
      (by decide),
    (unwrap_link_final_hop_selection [] followW 0 linkW (by decide)).2
      [hopNonFinal] hopFinal [] (by decide) (by decide) (by decide)⟩

/-- Witness for the C10 theorem: the failed resolution of `linkW` leaves the
empty store empty, the key is still absent at a later time, and a retry at
time 7 against a better resolver goes straight to the scan (the resolver is
consulted again). -/
theorem unwrap_link_failure_leaves_store_witness :
    (([] : LinkKV) = []) ∧
      kvGet [] 7 (linkUnwrapResultData linkW) = none ∧
      unwrapLink [] followW 7 linkW =
        unwrapLinkScan [] 7 (linkUnwrapResultData linkW) ((followW (btoa linkW)).reverse) :=
  ⟨(unwrap_link_failure_leaves_store [] followNoFinal 0 linkW
      "unable to determine \"final\" hop" [] (by decide)).1,
    (unwrap_link_failure_leaves_store [] followNoFinal 0 linkW
      "unable to determine \"final\" hop" [] (by decide)).2.2.1 7 (by decide),
    (unwrap_link_failure_leaves_store [] followNoFinal 0 linkW
      "unable to determine \"final\" hop" [] (by decide)).2.2.2 followW 7 (by decide)⟩

/-! ## Claim C8: the resilient call wrapper (`reliableFetch`, src/hc.ts)

Each attempt races `fetch` against `sleep(2_500)` and inspects the winner:
`undefined` (timeout), a non-ok response, an ok response, or a rejection
caught by the `try`.  The embedding makes the per-attempt outcome an
environment parameter and additionally records the wrapper's observable
actions, so that properties about what the wrapper does **not** do (cancel an
in-flight call, sleep between attempts) are expressible: the source contains
no `AbortController` and no backoff sleep, so the translation never emits
`cancelCall` or `sleepFor`. -/

inductive FetchAttemptResult where
  | timeout
  | notOk
  | ok
  | exn (e : String)
deriving DecidableEq, Repr

inductive FetchAction where
  | fetchCall (attempt : Nat)
  | raceSleep (ms : Nat)
  | sleepFor (ms : Nat)
  | cancelCall (attempt : Nat)
  | log (msg : String)
deriving DecidableEq, Repr

def MAX_ATTEMPTS : Nat := 5

/-- The `for (let attempt = 1; attempt <= MAX_ATTEMPTS; attempt++)` body of
`reliableFetch`, over the list of remaining attempt numbers. -/
def reliableFetchLoop (result : Nat → FetchAttemptResult) :
    List Nat → Bool × List FetchAction
  | [] => (false, [])
  | attempt :: rest =>
    let acts := [FetchAction.fetchCall attempt, FetchAction.raceSleep 2500]
    match result attempt with
    | .ok => (true, acts)
    | .timeout =>
      let r := reliableFetchLoop result rest
      (r.1, acts ++ FetchAction.log "reliableFetch: timeout" :: r.2)
    | .notOk =>
      let r := reliableFetchLoop result rest
      (r.1, acts ++ FetchAction.log "reliableFetch: non-ok reponse" :: r.2)
    | .exn e =>
      let r := reliableFetchLoop result rest
      (r.1, acts ++ FetchAction.log ("reliableFetch: fetch failure: " ++ e) :: r.2)

/-- Embeds `reliableFetch` of src/hc.ts: up to `MAX_ATTEMPTS` attempts,
returning the boolean outcome and the trace of actions performed. -/
def reliableFetch (result : Nat → FetchAttemptResult) : Bool × List FetchAction :=
  reliableFetchLoop result (List.range' 1 MAX_ATTEMPTS)

def isFetchCall : FetchAction → Bool
  | .fetchCall _ => true
  | _ => false

def isCancel : FetchAction → Bool
  | .cancelCall _ => true
  | _ => false

def isBackoff : FetchAction → Bool
  | .sleepFor _ => true
  | _ => false

/-- Number of attempts made during a run, read off the trace. -/
def attemptsMade (tr : List FetchAction) : Nat :=
  (tr.filter isFetchCall).length

example : List.range' 1 MAX_ATTEMPTS = [1, 2, 3, 4, 5] := by decide

/-- If every listed attempt fails (in any way), the loop returns `false`
after making exactly one fetch call per listed attempt, never cancelling and
never sleeping between attempts. -/
theorem reliableFetchLoop_all_fail (result : Nat → FetchAttemptResult)
    (l : List Nat) (hfail : ∀ a ∈ l, result a ≠ .ok) :
    (reliableFetchLoop result l).1 = false ∧
      attemptsMade (reliableFetchLoop result l).2 = l.length ∧
      ∀ act ∈ (reliableFetchLoop result l).2, isCancel act = false ∧
        isBackoff act = false := by
  induction l with
  | nil => exact ⟨rfl, rfl, fun act h => by cases h⟩
  | cons a rest ih =>
    have ha : result a ≠ .ok := hfail a (List.mem_cons_self a rest)
    obtain ⟨ih1, ih2, ih3⟩ := ih fun x hx => hfail x (List.mem_cons_of_mem a hx)
    unfold reliableFetchLoop
    cases hr : result a with
    | ok => exact absurd hr ha
    | timeout =>
      refine ⟨ih1, ?_, ?_⟩
      · simp only [attemptsMade, List.filter_append, List.length_append,
          List.filter_cons] at ih2 ⊢
        simp [isFetchCall, ih2]
        omega
      · intro act hact
        simp only [List.mem_append, List.mem_cons, List.not_mem_nil, or_false] at hact
        rcases hact with (h | h) | h | h
        · subst h; exact ⟨rfl, rfl⟩
        · subst h; exact ⟨rfl, rfl⟩
        · subst h; exact ⟨rfl, rfl⟩
        · exact ih3 act h
    | notOk =>
      refine ⟨ih1, ?_, ?_⟩
      · simp only [attemptsMade, List.filter_append, List.length_append,
          List.filter_cons] at ih2 ⊢
        simp [isFetchCall, ih2]
        omega
      · intro act hact
        simp only [List.mem_append, List.mem_cons, List.not_mem_nil, or_false] at hact
        rcases hact with (h | h) | h | h
        · subst h; exact ⟨rfl, rfl⟩
        · subst h; exact ⟨rfl, rfl⟩
        · subst h; exact ⟨rfl, rfl⟩
        · exact ih3 act h
    | exn e =>
      refine ⟨ih1, ?_, ?_⟩
      · simp only [attemptsMade, List.filter_append, List.length_append,
          List.filter_cons] at ih2 ⊢
        simp [isFetchCall, ih2]
        omega
      · intro act hact
        simp only [List.mem_append, List.mem_cons, List.not_mem_nil, or_false] at hact
        rcases hact with (h | h) | h | h
        · subst h; exact ⟨rfl, rfl⟩
        · subst h; exact ⟨rfl, rfl⟩
        · subst h; exact ⟨rfl, rfl⟩
        · exact ih3 act h

/-- If every attempt in `l` fails and attempt `b` succeeds, the loop over
`l ++ b :: rest` returns `true` after exactly `l.length + 1` fetch calls. -/
theorem reliableFetchLoop_fail_then_ok (result : Nat → FetchAttemptResult)
    (l : List Nat) (b : Nat) (rest : List Nat)
    (hfail : ∀ a ∈ l, result a ≠ .ok) (hok : result b = .ok) :
    (reliableFetchLoop result (l ++ b :: rest)).1 = true ∧
      attemptsMade (reliableFetchLoop result (l ++ b :: rest)).2 = l.length + 1 := by
  induction l with
  | nil =>
    rw [List.nil_append]
    unfold reliableFetchLoop
    rw [hok]
    exact ⟨rfl, rfl⟩
  | cons a as ih =>
    have ha : result a ≠ .ok := hfail a (List.mem_cons_self a as)
    obtain ⟨ih1, ih2⟩ := ih fun x hx => hfail x (List.mem_cons_of_mem a hx)
    rw [List.cons_append]
    unfold reliableFetchLoop
    cases hr : result a with
    | ok => exact absurd hr ha
    | timeout =>
      refine ⟨ih1, ?_⟩
      simp only [attemptsMade, List.filter_append, List.length_append,
        List.filter_cons] at ih2 ⊢
      simp [isFetchCall, ih2, List.length_cons]
      omega
    | notOk =>
      refine ⟨ih1, ?_⟩
      simp only [attemptsMade, List.filter_append, List.length_append,
        List.filter_cons] at ih2 ⊢
      simp [isFetchCall, ih2, List.length_cons]
      omega
    | exn e =>
      refine ⟨ih1, ?_⟩
      simp only [attemptsMade, List.filter_append, List.length_append,
        List.filter_cons] at ih2 ⊢
      simp [isFetchCall, ih2, List.length_cons]
      omega

/-- No run of the wrapper — successful or not — ever cancels an in-flight
call or sleeps between attempts: the source has no abort and no backoff. -/
theorem reliableFetchLoop_no_cancel (result : Nat → FetchAttemptResult)
    (l : List Nat) :
    ∀ act ∈ (reliableFetchLoop result l).2, isCancel act = false ∧
      isBackoff act = false := by
  induction l with
  | nil =>
    intro act h
    cases h
  | cons a rest ih =>
    intro act hact
    unfold reliableFetchLoop at hact
    cases hr : result a <;> simp only [hr, List.mem_append, List.mem_cons,
      List.not_mem_nil, or_false] at hact
    case ok =>
      rcases hact with h | h
      · subst h; exact ⟨rfl, rfl⟩
      · subst h; exact ⟨rfl, rfl⟩
    case timeout =>
      rcases hact with (h | h) | h | h
      · subst h; exact ⟨rfl, rfl⟩
      · subst h; exact ⟨rfl, rfl⟩
      · subst h; exact ⟨rfl, rfl⟩
      · exact ih act h
    case notOk =>
      rcases hact with (h | h) | h | h
      · subst h; exact ⟨rfl, rfl⟩
      · subst h; exact ⟨rfl, rfl⟩
      · subst h; exact ⟨rfl, rfl⟩
      · exact ih act h
    case exn e =>
      rcases hact with (h | h) | h | h
      · subst h; exact ⟨rfl, rfl⟩
      · subst h; exact ⟨rfl, rfl⟩
      · subst h; exact ⟨rfl, rfl⟩
      · exact ih act h

/-- C8 (amended).  The wrapper makes at most 5 attempts: a call failing on
attempts 1–4 and succeeding on attempt 5 returns `true` after exactly 5
attempts; a call that never succeeds (always timing out, always failing, or
always throwing) returns `false` after exactly 5 attempts with the exception
absorbed into the boolean; and no run cancels a timed-out in-flight call or
sleeps a backoff between attempts — timed-out calls are simply abandoned and
the retry is immediate. -/
theorem reliable_fetch_attempts :
    (∀ result : Nat → FetchAttemptResult,
        (∀ a, 1 ≤ a → a ≤ 4 → result a ≠ .ok) → result 5 = .ok →
        (reliableFetch result).1 = true ∧
          attemptsMade (reliableFetch result).2 = 5) ∧
    (∀ result : Nat → FetchAttemptResult,
        (∀ a, 1 ≤ a → a ≤ 5 → result a ≠ .ok) →
        (reliableFetch result).1 = false ∧
          attemptsMade (reliableFetch result).2 = 5) ∧
    (∀ result : Nat → FetchAttemptResult,
        ∀ act ∈ (reliableFetch result).2, isCancel act = false ∧
          isBackoff act = false) := by
  refine ⟨?_, ?_, ?_⟩
  · intro result hfail hok
    have hf : ∀ a ∈ ([1, 2, 3, 4] : List Nat), result a ≠ .ok := by
      intro a ha
      rcases (by simpa using ha : a = 1 ∨ a = 2 ∨ a = 3 ∨ a = 4) with rfl | rfl | rfl | rfl
      · exact hfail 1 (by omega) (by omega)
      · exact hfail 2 (by omega) (by omega)
      · exact hfail 3 (by omega) (by omega)
      · exact hfail 4 (by omega) (by omega)
    obtain ⟨h1, h2⟩ := reliableFetchLoop_fail_then_ok result [1, 2, 3, 4] 5 [] hf hok
    have hrange : List.range' 1 MAX_ATTEMPTS = [1, 2, 3, 4] ++ 5 :: [] := by decide
    constructor
    · unfold reliableFetch
      rw [hrange]
      exact h1
    · unfold reliableFetch
      rw [hrange]
      exact h2.trans (by decide)
  · intro result hfail
    have hf : ∀ a ∈ List.range' 1 MAX_ATTEMPTS, result a ≠ .ok := by
      intro a ha
      rw [show List.range' 1 MAX_ATTEMPTS = [1, 2, 3, 4, 5] from by decide] at ha
      rcases (by simpa using ha : a = 1 ∨ a = 2 ∨ a = 3 ∨ a = 4 ∨ a = 5) with
        rfl | rfl | rfl | rfl | rfl
      · exact hfail 1 (by omega) (by omega)
      · exact hfail 2 (by omega) (by omega)
      · exact hfail 3 (by omega) (by omega)
      · exact hfail 4 (by omega) (by omega)
      · exact hfail 5 (by omega) (by omega)
    obtain ⟨h1, h2, _⟩ := reliableFetchLoop_all_fail result (List.range' 1 MAX_ATTEMPTS) hf
    exact ⟨h1, h2.trans (by decide)⟩
  · intro result
    exact reliableFetchLoop_no_cancel result (List.range' 1 MAX_ATTEMPTS)

/-- A call that fails with a non-ok response on attempts 1–4 and succeeds on
attempt 5. -/
def failThenOk : Nat → FetchAttemptResult :=
  fun a => if a = 5 then .ok else .notOk

/-- A call that times out on every attempt. -/
def alwaysTimeout : Nat → FetchAttemptResult := fun _ => .timeout

/-- Witness for the C8 theorem: the fail-four-times-then-succeed call returns
success after exactly 5 attempts. -/
theorem reliable_fetch_attempts_witness :
    (reliableFetch failThenOk).1 = true ∧
      attemptsMade (reliableFetch failThenOk).2 = 5 :=
  reliable_fetch_attempts.1 failThenOk
    (fun a h1 h2 => by
      unfold failThenOk
      rw [if_neg (by omega : ¬ a = 5)]
      intro h
      cases h)
    (by decide)

/-- Counterexample to C8 as stated: in the always-timing-out run the wrapper
does make 5 attempts and returns `false`, but its action trace contains no
cancellation of the timed-out in-flight calls and no 100 ms backoff sleep —
the claimed cancellation and backoff do not exist in the code. -/
theorem reliable_fetch_no_cancel_no_backoff :
    (reliableFetch alwaysTimeout).1 = false ∧
      attemptsMade (reliableFetch alwaysTimeout).2 = 5 ∧
      (reliableFetch alwaysTimeout).2.filter isCancel = [] ∧
      (reliableFetch alwaysTimeout).2.filter isBackoff = [] := by decide

/-! ## Claim C9: the singleflight guard (`singleflight`, src/index.tsx)

The wrapper's closure state is `activePromise : Promise | null`.  JS runs the
wrapper body synchronously and atomically (single-threaded event loop), so its
behaviour is a sequential state machine: each call either joins the in-flight
promise or starts a new execution of `fn`; the `.finally` handler clears the
guard when that execution settles, fulfilled or rejected.  Executions of the
underlying `fn` are numbered in order; `started` counts how many have been
started, and the promise a caller receives is identified by its execution
number. -/

structure SFState where
  active : Option Nat
  started : Nat
deriving DecidableEq, Repr

/-- The initial closure state: `activePromise = null`. -/
def sfInit : SFState := ⟨none, 0⟩

/-- One invocation of the wrapped function: returns the next state and the
identity of the promise handed to the caller. -/
def sfInvoke (s : SFState) : SFState × Nat :=
  match s.active with
  | some b => (s, b)
  | none => (⟨some s.started, s.started + 1⟩, s.started)

/-- The `.finally` handler of the in-flight execution: clears the guard
whether the batch succeeded or failed. -/
def sfComplete (s : SFState) : SFState :=
  ⟨none, s.started⟩

/-- C9.  A second invocation issued while one is in flight returns the very
same in-flight promise and starts no new execution of the underlying batch;
and once the in-flight execution completes (success or failure), the guard is
cleared, so the next invocation starts a fresh batch with a new identity. -/
theorem singleflight_joins_and_resets (s : SFState) (hidle : s.active = none) :
    ((sfInvoke s).2 = s.started ∧ (sfInvoke s).1.started = s.started + 1) ∧
      (sfInvoke (sfInvoke s).1 = ((sfInvoke s).1, (sfInvoke s).2) ∧
        (sfInvoke (sfInvoke s).1).1.started = s.started + 1) ∧
      ((sfComplete (sfInvoke s).1).active = none ∧
        (sfInvoke (sfComplete (sfInvoke s).1)).2 = s.started + 1 ∧
        (sfInvoke (sfComplete (sfInvoke s).1)).2 ≠ (sfInvoke s).2) := by
  simp [sfInvoke, sfComplete, hidle]

/-- Witness for the C9 theorem from the initial idle state. -/
theorem singleflight_joins_and_resets_witness :
    (sfInvoke (sfInvoke sfInit).1 = ((sfInvoke sfInit).1, (sfInvoke sfInit).2) ∧
        (sfInvoke (sfInvoke sfInit).1).1.started = sfInit.started + 1) ∧
      (sfInvoke (sfComplete (sfInvoke sfInit).1)).2 ≠ (sfInvoke sfInit).2 :=
  ⟨(singleflight_joins_and_resets sfInit rfl).2.1,
    (singleflight_joins_and_resets sfInit rfl).2.2.2.2⟩
